import Mathlib

/-!
Verification development for the map-QA geometry core
(`backend/qa/geometry_qa.py` and `backend/qa/fix_engine.py`).

The Python code is shallowly embedded as executable Lean definitions:

* shapely geometry values become the inductive `Geom`, with exact rational
  coordinates (the source's floating-point arithmetic is modelled exactly
  over `ℚ`; all comparisons the claims depend on are far from rounding
  boundaries);
* Euclidean distances appear through their squares, which are rational;
  a comparison `dist OP tol` of the source is embedded as the equivalent
  squared comparison together with the sign condition on `tol`;
* calls into the shapely/GEOS library whose numerics the claims do not
  depend on (snap, simplify, buffer(0), make_valid, wkt serialisation,
  arc length, interpolation) are parameters of the embedding
  (`ShapelyOps`); the theorems hold for every instantiation;
* Python `None` slots (tombstones) become `Option Geom` with `none`;
* a raised-and-caught exception becomes an explicit failure value.
-/

set_option maxHeartbeats 1000000
set_option maxRecDepth 10000

namespace MapQA

/- The Batteries `Rat` arithmetic operations are shipped `irreducible`,
which prevents `decide` from evaluating the concrete scenarios below;
restore the default reducibility inside this development. -/
attribute [local semireducible] Rat.mul Rat.add Rat.sub Rat.inv Rat.ofScientific

/-- A 2-D coordinate. Source coordinates are floats; they are modelled by
exact rationals. -/
structure Pt where
  x : ℚ
  y : ℚ
deriving DecidableEq, Repr

/-- The shapely geometry kinds the application manipulates. -/
inductive Geom where
  | point (p : Pt)
  | lineString (coords : List Pt)
  | multiLineString (parts : List (List Pt))
  | polygon (exterior : List Pt) (holes : List (List Pt))
deriving DecidableEq, Repr

/-- shapely's `geom_type` string. -/
def Geom.geomType : Geom → String
  | .point _ => "Point"
  | .lineString _ => "LineString"
  | .multiLineString _ => "MultiLineString"
  | .polygon _ _ => "Polygon"

/-- shapely's `is_empty`. -/
def Geom.isEmptyG : Geom → Bool
  | .point _ => false
  | .lineString cs => cs.isEmpty
  | .multiLineString ps => ps.isEmpty
  | .polygon ext _ => ext.isEmpty

/-- Squared Euclidean distance between two points. -/
def ptDistSq (p q : Pt) : ℚ :=
  (p.x - q.x) * (p.x - q.x) + (p.y - q.y) * (p.y - q.y)

/-- Squared distance from point `p` to the segment `[a, b]`
(clamped orthogonal projection; exact over `ℚ`). -/
def ptSegDistSq (p a b : Pt) : ℚ :=
  let dx := b.x - a.x
  let dy := b.y - a.y
  let len2 := dx * dx + dy * dy
  if len2 = 0 then ptDistSq p a
  else
    let t := ((p.x - a.x) * dx + (p.y - a.y) * dy) / len2
    let t' := max 0 (min 1 t)
    ptDistSq p ⟨a.x + t' * dx, a.y + t' * dy⟩

/-- Cross product of `(a - o)` and `(b - o)`. -/
def crossO (o a b : Pt) : ℚ :=
  (a.x - o.x) * (b.y - o.y) - (a.y - o.y) * (b.x - o.x)

/-- `p` lies on the closed segment `[a, b]`. -/
def onSeg (p a b : Pt) : Bool :=
  decide (crossO a b p = 0) &&
  decide (min a.x b.x ≤ p.x) && decide (p.x ≤ max a.x b.x) &&
  decide (min a.y b.y ≤ p.y) && decide (p.y ≤ max a.y b.y)

/-- Closed segments `[a, b]` and `[c, d]` intersect. -/
def segsIntersect (a b c d : Pt) : Bool :=
  let d1 := crossO c d a
  let d2 := crossO c d b
  let d3 := crossO a b c
  let d4 := crossO a b d
  (((decide (0 < d1) && decide (d2 < 0)) || (decide (d1 < 0) && decide (0 < d2))) &&
   ((decide (0 < d3) && decide (d4 < 0)) || (decide (d3 < 0) && decide (0 < d4)))) ||
  onSeg a c d || onSeg b c d || onSeg c a b || onSeg d a b

/-- Consecutive coordinate pairs of a coordinate list. -/
def segsOf (cs : List Pt) : List (Pt × Pt) := cs.zip cs.tail

/-- All vertices of a geometry. -/
def Geom.vertices : Geom → List Pt
  | .point p => [p]
  | .lineString cs => cs
  | .multiLineString ps => ps.flatten
  | .polygon ext holes => ext ++ holes.flatten

/-- All boundary segments of a geometry. -/
def Geom.segsG : Geom → List (Pt × Pt)
  | .point _ => []
  | .lineString cs => segsOf cs
  | .multiLineString ps => (ps.map segsOf).flatten
  | .polygon ext holes => segsOf ext ++ (holes.map segsOf).flatten

/-- Crossing-number point-in-ring test (the ring is the closed coordinate
list `cs`; boundary points are handled by the segment distances that
accompany every use of this test). -/
def pointInRing (p : Pt) (cs : List Pt) : Bool :=
  (segsOf cs).foldl (fun inside ab =>
    let a := ab.1
    let b := ab.2
    if (decide (p.y < a.y)) ≠ (decide (p.y < b.y)) then
      let t := (p.y - a.y) / (b.y - a.y)
      if p.x < a.x + t * (b.x - a.x) then !inside else inside
    else inside) false

/-- Interior containment: only areal geometries (polygons) contain points;
a point inside a hole is not contained. -/
def Geom.containsPt : Geom → Pt → Bool
  | .polygon ext holes, p => pointInRing p ext && holes.all (fun h => !(pointInRing p h))
  | _, _ => false

/-- Minimum of a rational list, `none` when empty. -/
def minQ? : List ℚ → Option ℚ
  | [] => none
  | q :: qs => some (qs.foldl min q)

/-- Squared distance from a point to a full geometry (shapely
`pt.distance(geom)`): zero inside an areal geometry, otherwise the minimum
over all vertices and boundary segments. `none` models the `nan` shapely 2
returns for an empty geometry. -/
def ptGeomDistSq (p : Pt) (g : Geom) : Option ℚ :=
  if g.isEmptyG then none
  else if g.containsPt p then some 0
  else
    minQ? ((g.vertices.map (ptDistSq p)) ++
           ((Geom.segsG g).map (fun ab => ptSegDistSq p ab.1 ab.2)))

/-- Squared distance between two full geometries (shapely
`g.distance(h)`): zero when the boundaries intersect or one geometry has a
vertex inside the other, otherwise the minimal vertex-to-geometry
distance. `none` models shapely 2's `nan` for empty operands. -/
def geomGeomDistSq (g h : Geom) : Option ℚ :=
  if g.isEmptyG || h.isEmptyG then none
  else if (Geom.segsG g).any (fun s1 => (Geom.segsG h).any (fun s2 =>
            segsIntersect s1.1 s1.2 s2.1 s2.2)) then some 0
  else if g.vertices.any h.containsPt || h.vertices.any g.containsPt then some 0
  else
    minQ? ((g.vertices.filterMap (fun v => ptGeomDistSq v h)) ++
           (h.vertices.filterMap (fun v => ptGeomDistSq v g)))

/-- The source comparison `dist <= tol` on the (nonnegative) real distance,
expressed through the squared distance; `none` (nan) compares false. -/
def distLeTol (dSq : Option ℚ) (tol : ℚ) : Bool :=
  match dSq with
  | none => false
  | some d => decide (0 ≤ tol) && decide (d ≤ tol * tol)

/-- The source comparison `dist < tol`, squared form; `none` (nan)
compares false. -/
def distLtTol (dSq : Option ℚ) (tol : ℚ) : Bool :=
  match dSq with
  | none => false
  | some d => decide (0 < tol) && decide (d < tol * tol)

/-- shapely `is_closed` for a coordinate list: first equals last. -/
def isClosedLS (cs : List Pt) : Bool :=
  match cs.head?, cs.getLast? with
  | some a, some b => decide (a = b)
  | _, _ => false

/-- `p` lies strictly inside segment `[a,b]` direction-wise is not needed;
helper for the simplicity test: two consecutive segments `(a,b)`, `(b,c)`
overlap in more than their shared vertex. -/
def adjacentOverlap (a b c : Pt) : Bool :=
  onSeg c a b || onSeg a b c

/-- Models GEOS `is_simple` for a line's coordinate list: no two segments
meet, except consecutive segments (and the closing pair of a closed line)
at their shared vertex without overlapping. -/
def isSimpleLS (cs : List Pt) : Bool :=
  let segs := (segsOf cs).enum
  let n := segs.length
  let closed := isClosedLS cs
  segs.all (fun is1 =>
    segs.all (fun is2 =>
      let i := is1.1
      let j := is2.1
      let s1 := is1.2
      let s2 := is2.2
      if i < j then
        if j = i + 1 then
          !(adjacentOverlap s1.1 s1.2 s2.2)
        else if closed && i = 0 && j = n - 1 then
          !(adjacentOverlap s2.1 s2.2 s1.2)
        else
          !(segsIntersect s1.1 s1.2 s2.1 s2.2)
      else true))

/-- shapely `is_ring` on a LineString: closed and simple. -/
def isRingG : Geom → Bool
  | .lineString cs => isClosedLS cs && isSimpleLS cs
  | _ => false

/-- Models shapely `is_valid`: points and linework are always valid; a
polygon needs well-formed simple closed rings (hole-nesting rules are not
modelled; no claim evaluates validity of a polygon). -/
def ringWellFormed (r : List Pt) : Bool :=
  decide (4 ≤ r.length) && isClosedLS r && isSimpleLS r

def isValidG : Geom → Bool
  | .point _ => true
  | .lineString _ => true
  | .multiLineString _ => true
  | .polygon ext holes => ringWellFormed ext && holes.all ringWellFormed

/-! ### Python string primitives

The statement scanner and the finding-id machinery of the source operate
on Python strings; they are embedded over `List Char`. -/

/-- Python `str.split(sep)` for a one-character separator: keeps empty
chunks, never returns an empty list. -/
def pySplit (sep : Char) : List Char → List (List Char)
  | [] => [[]]
  | c :: cs =>
    let rest := pySplit sep cs
    if c = sep then [] :: rest
    else
      match rest with
      | t :: ts => (c :: t) :: ts
      | [] => [[c]]

def isWsChar (c : Char) : Bool :=
  c = ' ' || c = '\t' || c = '\r' || c = '\n'

/-- Python `str.strip()` (whitespace only, as used by the source). -/
def pyStripChars (cs : List Char) : List Char :=
  ((cs.dropWhile isWsChar).reverse.dropWhile isWsChar).reverse

/-- Python `str.isdigit()` restricted to ASCII (all inputs are ASCII):
nonempty and all decimal digits. -/
def pyIsDigitStr (t : List Char) : Bool :=
  !t.isEmpty && t.all Char.isDigit

/-- Python `int(p)` on an all-digit token. -/
def charsToNat (t : List Char) : ℕ :=
  t.foldl (fun a c => 10 * a + (c.toNat - 48)) 0

/-- Little-endian decimal digits with explicit fuel (structural
recursion, so that kernel evaluation works). -/
def natDigitsAux : ℕ → ℕ → List ℕ
  | 0, _ => []
  | _ + 1, 0 => []
  | fuel + 1, n + 1 => ((n + 1) % 10) :: natDigitsAux fuel ((n + 1) / 10)

/-- Python `str(n)` for a natural number. -/
def natToChars (n : ℕ) : List Char :=
  if n = 0 then ['0'] else ((natDigitsAux n n).reverse.map Nat.digitChar)

/-- ASCII uppercase for one character (explicit table so that kernel
reduction works). -/
def charUpper (c : Char) : Char :=
  match c with
  | 'a' => 'A' | 'b' => 'B' | 'c' => 'C' | 'd' => 'D' | 'e' => 'E'
  | 'f' => 'F' | 'g' => 'G' | 'h' => 'H' | 'i' => 'I' | 'j' => 'J'
  | 'k' => 'K' | 'l' => 'L' | 'm' => 'M' | 'n' => 'N' | 'o' => 'O'
  | 'p' => 'P' | 'q' => 'Q' | 'r' => 'R' | 's' => 'S' | 't' => 'T'
  | 'u' => 'U' | 'v' => 'V' | 'w' => 'W' | 'x' => 'X' | 'y' => 'Y'
  | 'z' => 'Z' | other => other

/-- Python `str.upper()` (ASCII). -/
def pyUpper (s : String) : String :=
  ⟨s.data.map charUpper⟩

/-! ### WKT parsing

`shapely.wkt.loads` is external library code; it is modelled concretely on
the 2-D geometry subset the application uses (POINT, LINESTRING,
MULTILINESTRING, POLYGON). `none` models a parse exception. -/

def digitsVal (t : List Char) : Option ℕ :=
  if pyIsDigitStr t then some (charsToNat t) else none

/-- Parse a decimal number (optional sign, optional fractional part). -/
def parseRat (cs : List Char) : Option ℚ :=
  let sgn : ℚ := match cs with
    | '-' :: _ => -1
    | _ => 1
  let body : List Char := match cs with
    | '-' :: r => r
    | _ => cs
  match pySplit '.' body with
  | [ip] => (digitsVal ip).map fun n => sgn * (n : ℚ)
  | [ip, fp] =>
    match digitsVal ip, digitsVal fp with
    | some n, some f => some (sgn * ((n : ℚ) + (f : ℚ) / (10 : ℚ) ^ fp.length))
    | _, _ => none
  | _ => none

/-- Parse one `x y` coordinate pair. -/
def parsePt (cs : List Char) : Option Pt :=
  match (pySplit ' ' (pyStripChars cs)).filter (fun t => !t.isEmpty) with
  | [xs, ys] => do
    let x ← parseRat xs
    let y ← parseRat ys
    pure ⟨x, y⟩
  | _ => none

/-- Parse a comma-separated coordinate list. -/
def parseCoordList (cs : List Char) : Option (List Pt) :=
  (pySplit ',' cs).mapM parsePt

/-- State for scanning a flat list of parenthesised groups. -/
structure GroupSt where
  depth : ℕ
  cur : List Char
  out : List (List Char)
  ok : Bool

def topGroupsStep (st : GroupSt) (c : Char) : GroupSt :=
  if !st.ok then st
  else if st.depth = 0 then
    if c = '(' then { st with depth := 1, cur := [] }
    else if c = ',' || isWsChar c then st
    else { st with ok := false }
  else
    if c = ')' then { st with depth := 0, out := st.out ++ [st.cur] }
    else if c = '(' then { st with ok := false }
    else { st with cur := st.cur ++ [c] }

/-- Split `"(a),(b),..."` into its groups `a, b, ...`. -/
def topGroups (cs : List Char) : Option (List (List Char)) :=
  let st := cs.foldl topGroupsStep ⟨0, [], [], true⟩
  if st.ok && st.depth = 0 then some st.out else none

def startsList : List Char → List Char → Bool
  | [], _ => true
  | _ :: _, [] => false
  | p :: ps, c :: cs => p = c && startsList ps cs

/-- The text between an outermost `(` … `)` pair. -/
def insideParens (cs : List Char) : Option (List Char) :=
  match pyStripChars cs with
  | '(' :: rest =>
    match rest.getLast? with
    | some ')' => some rest.dropLast
    | _ => none
  | _ => none

/-- shapely requires polygon rings to be closed with at least 4 points. -/
def ringParseOk (r : List Pt) : Bool :=
  decide (4 ≤ r.length) && isClosedLS r

/-- Model of `shapely.wkt.loads` on the application's geometry subset.
`POINT EMPTY` has no representation here and is modelled as a failure; no
claim depends on it. -/
def wktLoads (cs : List Char) : Option Geom :=
  let t := (pyStripChars cs).map charUpper
  if startsList "MULTILINESTRING".data t then
    let rest := pyStripChars (t.drop 15)
    if rest = "EMPTY".data then some (.multiLineString [])
    else do
      let inner ← insideParens rest
      let gs ← topGroups inner
      let parts ← gs.mapM parseCoordList
      if !parts.isEmpty && parts.all (fun p => 2 ≤ p.length) then
        pure (.multiLineString parts)
      else none
  else if startsList "LINESTRING".data t then
    let rest := pyStripChars (t.drop 10)
    if rest = "EMPTY".data then some (.lineString [])
    else do
      let inner ← insideParens rest
      let coords ← parseCoordList inner
      if 2 ≤ coords.length then pure (.lineString coords) else none
  else if startsList "POLYGON".data t then
    let rest := pyStripChars (t.drop 7)
    if rest = "EMPTY".data then some (.polygon [] [])
    else do
      let inner ← insideParens rest
      let gs ← topGroups inner
      let rings ← gs.mapM parseCoordList
      match rings with
      | ext :: holes =>
        if (ext :: holes).all ringParseOk then pure (.polygon ext holes) else none
      | [] => none
  else if startsList "POINT".data t then do
    let rest := pyStripChars (t.drop 5)
    let inner ← insideParens rest
    let p ← parsePt inner
    pure (.point p)
  else none

/-! ### The statement scanner

Both `run_geometry_qa` (geometry_qa.py) and
`GeometryFixEngine.load_wkt_content` (fix_engine.py) share this loop:
accumulate stripped non-blank lines into a buffer, close a statement when
a line ends with `)`, remember the 1-based line number of the first
non-blank line of each statement, and parse only the text after the last
semicolon. -/

structure ScanState where
  buf : List Char
  startLine : ℕ
  acc : List (ℕ × List Char)

def scanStep (st : ScanState) (il : ℕ × List Char) : ScanState :=
  let stripped := pyStripChars il.2
  if stripped.isEmpty then st
  else
    let st := if st.buf.isEmpty then { st with startLine := il.1 + 1 } else st
    let buf := st.buf ++ stripped ++ [' ']
    if stripped.getLast? = some ')' then
      { buf := [],
        startLine := st.startLine,
        acc := st.acc ++ [(st.startLine, (pySplit ';' buf).getLastD [])] }
    else { st with buf := buf }

/-- Each produced pair is (1-based start line of the statement, the text
handed to `shapely.wkt.loads`). -/
def scanStatements (text : String) : List (ℕ × List Char) :=
  ((pySplit '\n' text.data).enum.foldl scanStep ⟨[], 0, []⟩).acc

/-! ### geometry_qa.py: loading and diagnostics -/

/-- One entry of `lines_data` in `run_geometry_qa`: `id` is the position
in the list at append time, `lineNo` the 1-based start line. The source
stores the parsed geometry directly (never `None`: parse failures are
skipped with `pass`). -/
structure LineRec where
  id : ℕ
  lineNo : ℕ
  geom : Geom
deriving DecidableEq, Repr

/-- The loading loop of `run_geometry_qa`: keep only successfully parsed,
non-empty geometries. -/
def loadLinesData (text : String) : List LineRec :=
  (scanStatements text).foldl (fun acc st =>
    match wktLoads st.2 with
    | some g => if g.isEmptyG then acc else acc ++ [⟨acc.length, st.1, g⟩]
    | none => acc) []

/-- The finding dictionaries of the source, restricted to the fields the
claims inspect (`location`, `description` and `wkt` strings are
float-formatted presentation fields and are omitted). `fid` is the
`id` key; the insufficient-data finding has no `id`/indices. -/
structure Finding where
  fid : Option (List Char)
  ftype : String
  geometryIndex : Option ℕ
  lineNumber : Option ℕ
  severity : String
  errorPoint : Option Pt
deriving DecidableEq, Repr

def dangleType : String := "Dangle (Unconnected Endpoint)"
def shortType : String := "Short Line Segment"
def invalidType : String := "Invalid Geometry"

/-- An endpoint record of `find_dangles` (`pt` and `coord` of the source
coincide; one field suffices). -/
structure Endpoint where
  pt : Pt
  lineIdx : ℕ
  lineNo : ℕ
  loc : String
deriving DecidableEq, Repr

/-- `find_dangles` step 1 for one part: skip parts with fewer than two
coordinates, else record the start and end points. -/
def endpointsOfPart (item : LineRec) (part : List Pt) : List Endpoint :=
  if part.length < 2 then []
  else
    match part.head?, part.getLast? with
    | some a, some b =>
      [⟨a, item.id, item.lineNo, "start"⟩, ⟨b, item.id, item.lineNo, "end"⟩]
    | _, _ => []

/-- The parts list of `find_dangles`: a LineString yields itself, a
MultiLineString its members, anything else nothing. -/
def linePartsOf : Geom → List (List Pt)
  | .lineString cs => [cs]
  | .multiLineString ps => ps
  | _ => []

/-- `find_dangles` step 1 (the `geom is None` guard of the source is dead
for loader-produced data and is subsumed by the `is_empty` guard). -/
def collectEndpoints (linesData : List LineRec) : List Endpoint :=
  linesData.flatMap (fun item =>
    if item.geom.isEmptyG then []
    else (linePartsOf item.geom).flatMap (endpointsOfPart item))

/-- `find_dangles` step 2: an endpoint is connected when some *other*
record's full geometry is within the tolerance. -/
def isConnectedEp (linesData : List LineRec) (tolerance : ℚ) (ep : Endpoint) : Bool :=
  linesData.any (fun other =>
    decide (ep.lineIdx ≠ other.id) &&
    !other.geom.isEmptyG &&
    distLeTol (ptGeomDistSq ep.pt other.geom) tolerance)

/-- The ring exemption of `find_dangles`: it looks up
`lines_data[my_idx]` (for loader data, `id` equals the position) and
exempts only a whole record that is a LineString with `is_ring`. A
failed lookup would raise in the source and is unreachable from
`run_geometry_qa`. -/
def ringExempt (linesData : List LineRec) (ep : Endpoint) : Bool :=
  match linesData.get? ep.lineIdx with
  | some item => item.geom.geomType = "LineString" && isRingG item.geom
  | none => false

def mkDangleFinding (ep : Endpoint) : Finding :=
  { fid := some ("dangle".data ++ '-' :: natToChars ep.lineNo ++ '-' :: ep.loc.data),
    ftype := dangleType,
    geometryIndex := some ep.lineIdx,
    lineNumber := some ep.lineNo,
    severity := "HIGH",
    errorPoint := some ep.pt }

/-- `find_dangles`. -/
def findDangles (linesData : List LineRec) (tolerance : ℚ) : List Finding :=
  (collectEndpoints linesData).filterMap (fun ep =>
    if isConnectedEp linesData tolerance ep then none
    else if ringExempt linesData ep then none
    else some (mkDangleFinding ep))

/-- External shapely/GEOS operations whose numerics the claims do not
depend on; the embedding is parametric in them and every theorem below
holds for all instantiations. `lengthG` models `geom.length` (an
irrational arc length in general), `interpolate` models
`geom.interpolate`. -/
structure ShapelyOps where
  wktOf : Geom → String
  snapTo : Geom → Geom → ℚ → Geom
  simplifyG : Geom → ℚ → Geom
  buffer0 : Geom → Geom
  makeValid : Geom → Geom
  lengthG : Geom → ℚ
  interpolate : Geom → ℚ → Pt

/-- `find_short_lines`. -/
def findShortLines (ops : ShapelyOps) (linesData : List LineRec) (minLen : ℚ) :
    List Finding :=
  linesData.filterMap (fun item =>
    if item.geom.isEmptyG then none
    else if ops.lengthG item.geom < minLen then
      some { fid := some ("short".data ++ '-' :: natToChars item.lineNo),
             ftype := shortType,
             geometryIndex := some item.id,
             lineNumber := some item.lineNo,
             severity := "LOW",
             errorPoint := none }
    else none)

/-- The validity pass of `run_geometry_qa`. -/
def validityFindings (linesData : List LineRec) : List Finding :=
  linesData.filterMap (fun item =>
    if isValidG item.geom then none
    else some { fid := some ("invalid".data ++ '-' :: natToChars item.lineNo),
                ftype := invalidType,
                geometryIndex := some item.id,
                lineNumber := some item.lineNo,
                severity := "CRITICAL",
                errorPoint := none })

def insufficientFinding : Finding :=
  { fid := none, ftype := "insufficient_data", geometryIndex := none,
    lineNumber := none, severity := "", errorPoint := none }

/-- geometry_qa.py constants. -/
def TOLERANCE : ℚ := 1/2
def MIN_LINE_LENGTH : ℚ := 2

/-- The error list produced by `run_geometry_qa` (the visualisation and
the output URL are presentation-only and outside the model). -/
def runGeometryQa (ops : ShapelyOps) (text : String) : List Finding :=
  if (loadLinesData text).length < 1 then [insufficientFinding]
  else
    validityFindings (loadLinesData text) ++
      findDangles (loadLinesData text) TOLERANCE ++
      findShortLines ops (loadLinesData text) MIN_LINE_LENGTH

/-! ### fix_engine.py: the geometry store and the fix dispatcher -/

/-- `GeometryFixEngine.load_wkt_content`: same scanning loop; a parse
exception appends `None` (tombstone), an empty parse result appends
nothing. -/
def loadGeometries (text : String) : List (Option Geom) :=
  (scanStatements text).foldl (fun acc st =>
    match wktLoads st.2 with
    | some g => if g.isEmptyG then acc else acc ++ [some g]
    | none => acc ++ [none]) []

structure FixRecord where
  errorId : List Char
  fixType : String
  originalWkt : String
  result : String
  timestamp : String
deriving DecidableEq, Repr

/-- The mutable state of `GeometryFixEngine` (the unused `spatial_index`
is omitted). -/
structure EngineState where
  originalGeometries : List (Option Geom)
  currentGeometries : List (Option Geom)
  appliedFixes : List FixRecord
deriving DecidableEq, Repr

/-- `load_wkt_content`: reset all three fields; `current` is a deep copy
of `original`. -/
def loadWktContent (text : String) : EngineState :=
  let gs := loadGeometries text
  ⟨gs, gs, []⟩

/-- `get_geometry`: an out-of-range index returns `None`, the same value
a tombstone slot holds. -/
def getGeometry (s : EngineState) (index : Int) : Option Geom :=
  if 0 ≤ index ∧ index < (s.currentGeometries.length : Int) then
    s.currentGeometries.getD index.toNat none
  else none

structure FixResult where
  success : Bool
  message : String
deriving DecidableEq, Repr

/-- Index resolution of `apply_fix`: split the id on `-` and take the
first all-digit token; `-1` when there is none. -/
def extractIdx (errorId : List Char) : Int :=
  match (pySplit '-' errorId).find? pyIsDigitStr with
  | some t => (charsToNat t : Int)
  | none => -1

/-- `params.get(key, dflt) if params else dflt`. -/
def getParam (params : Option (List (String × ℚ))) (key : String) (dflt : ℚ) : ℚ :=
  match params with
  | none => dflt
  | some ps => (((ps.find? (fun kv => kv.1 = key)).map Prod.snd).getD dflt)

/-- One iteration of the SNAP candidate loop: skip the target index,
keep the strictly closest geometry with distance strictly below the
tolerance (`dist < min_dist and dist < tolerance`). `geom.distance(None)`
and distances to empty geometries are nan in shapely 2 and never compare
below anything, so tombstones and empties are never selected. -/
def snapStep (geom : Geom) (tol : ℚ) (idx : ℕ) (other : Option Geom) (i : ℕ)
    (best : Option (ℚ × Geom)) : Option (ℚ × Geom) :=
  if i = idx then best
  else
    match other with
    | none => best
    | some og =>
      match geomGeomDistSq geom og with
      | none => best
      | some dSq =>
        if (match best with
            | none => true
            | some md => decide (dSq < md.1)) &&
            decide (0 < tol) && decide (dSq < tol * tol) then
          some (dSq, og)
        else best

/-- The SNAP candidate loop over the enumerated working list. -/
def snapScanAux (geom : Geom) (tol : ℚ) (idx : ℕ) :
    List (Option Geom) → ℕ → Option (ℚ × Geom) → Option (ℚ × Geom)
  | [], _, best => best
  | other :: rest, i, best =>
    snapScanAux geom tol idx rest (i + 1) (snapStep geom tol idx other i best)

def snapScan (cur : List (Option Geom)) (idx : ℕ) (geom : Geom) (tol : ℚ) :
    Option (ℚ × Geom) :=
  snapScanAux geom tol idx cur 0 none

/-- Outcome of the strategy dispatch inside `apply_fix`: either an early
`{success: false}` return (or a caught exception), or a possibly updated
working list together with the `fix_result` message. -/
inductive FixOutcome where
  | failed (message : String)
  | applied (newCurrent : List (Option Geom)) (message : String)

def ratTrunc (q : ℚ) : Int :=
  if 0 ≤ q then ⌊q⌋ else -⌊-q⌋

/-- The SNAP strategy (fix_engine.py lines 88-108). -/
def snapStrategy (ops : ShapelyOps) (cur : List (Option Geom)) (idx : ℕ)
    (geom : Geom) (params : Option (List (String × ℚ))) : FixOutcome :=
  match snapScan cur idx geom (getParam params "tolerance" (1/2)) with
  | some best =>
    .applied (cur.set idx (some (ops.snapTo geom best.2 (getParam params "tolerance" (1/2)))))
      "Snapped to nearest geometry"
  | none => .failed "No geometry found within snap tolerance"

/-- The CLOSE strategy (lines 148-162); `geom_type == 'LinearRing'` never
occurs for stored geometries. An empty coordinate list raises IndexError
at `coords[0]`. -/
def closeStrategy (cur : List (Option Geom)) (idx : ℕ) (geom : Geom) : FixOutcome :=
  if geom.geomType = "Polygon" then .applied cur "Ring already closed"
  else if geom.geomType = "LineString" then
    match geom with
    | .lineString [] => .failed "list index out of range"
    | .lineString (c0 :: rest) =>
      if c0 ≠ (c0 :: rest).getLast (by simp) then
        .applied (cur.set idx (some (.lineString ((c0 :: rest) ++ [c0]))))
          "Closed the ring by connecting end to start"
      else .applied cur "Ring already closed"
    | _ => .applied cur "Ring already closed"
  else .applied cur "Close not applicable to this geometry type"

/-- The REVERSE strategy (lines 167-181). -/
def reverseStrategy (cur : List (Option Geom)) (idx : ℕ) (geom : Geom) : FixOutcome :=
  match geom with
  | .polygon ext holes =>
    .applied (cur.set idx (some (.polygon ext.reverse (holes.map List.reverse))))
      "Reversed winding order"
  | .lineString cs =>
    .applied (cur.set idx (some (.lineString cs.reverse)))
      "Reversed coordinate order"
  | _ => .applied cur "Reverse not applicable"

/-- `num_points = max(int(length / interval), 2)` followed by
`[geom.interpolate(i * interval) for i in range(num_points + 1)]`. -/
def densifyPoints (ops : ShapelyOps) (geom : Geom) (interval : ℚ) : List Pt :=
  (List.range ((max (ratTrunc (ops.lengthG geom / interval)) 2).toNat + 1)).map
    (fun i => ops.interpolate geom ((i : ℚ) * interval))

/-- The DENSIFY strategy (lines 186-198); a zero interval raises when
`int()` is applied to the infinite float quotient. -/
def densifyStrategy (ops : ShapelyOps) (cur : List (Option Geom)) (idx : ℕ)
    (geom : Geom) (params : Option (List (String × ℚ))) : FixOutcome :=
  match geom with
  | .lineString _ =>
    if getParam params "interval" 1 = 0 then
      .failed "cannot convert float infinity to integer"
    else
      .applied
        (cur.set idx (some (.lineString (densifyPoints ops geom (getParam params "interval" 1)))))
        ("Densified with " ++
          toString (max (ratTrunc (ops.lengthG geom / getParam params "interval" 1)) 2) ++
          " points")
  | _ => .applied cur "Densify not applicable to this geometry type"

/-- The strategy dispatch of `apply_fix` (fix_engine.py lines 85-208).
Messages that the source builds from floating-point values are modelled
by their constant prefix. -/
def dispatchFix (ops : ShapelyOps) (cur : List (Option Geom)) (idx : ℕ) (geom : Geom)
    (fixType : String) (params : Option (List (String × ℚ))) : FixOutcome :=
  if pyUpper fixType = "SNAP" then snapStrategy ops cur idx geom params
  else if pyUpper fixType = "DELETE" then
    .applied (cur.set idx none) "Deleted geometry"
  else if pyUpper fixType = "SIMPLIFY" then
    .applied (cur.set idx (some (ops.simplifyG geom (getParam params "tolerance" (1/2)))))
      ("Simplified geometry (tolerance: " ++
        toString (getParam params "tolerance" (1/2)) ++ ")")
  else if pyUpper fixType = "BUFFER" then
    .applied (cur.set idx (some (ops.buffer0 geom)))
      "Applied buffer(0) to fix self-intersection"
  else if pyUpper fixType = "MAKE_VALID" then
    .applied (cur.set idx (some (ops.makeValid geom)))
      "Applied make_valid() to repair geometry"
  else if pyUpper fixType = "CLOSE" then closeStrategy cur idx geom
  else if pyUpper fixType = "REVERSE" then reverseStrategy cur idx geom
  else if pyUpper fixType = "DENSIFY" then densifyStrategy ops cur idx geom params
  else if pyUpper fixType = "OTHER" then
    .applied cur "Marked as reviewed (no auto-fix available)"
  else .failed ("Unknown fix type: " ++ fixType)

/-- `GeometryFixEngine.apply_fix`. A tombstone target raises at
`geom.wkt`; the exception is caught and returned as a failure. Every
branch that sets `fix_result` (always a nonempty string) appends exactly
one fix record and reports success. -/
def applyFix (ops : ShapelyOps) (s : EngineState) (errorId : List Char)
    (fixType : String) (params : Option (List (String × ℚ))) :
    EngineState × FixResult :=
  if extractIdx errorId = -1 ∨ (s.currentGeometries.length : Int) ≤ extractIdx errorId then
    (s, ⟨false, "Invalid geometry index: " ++ toString (extractIdx errorId)⟩)
  else
    match s.currentGeometries.getD (extractIdx errorId).toNat none with
    | none => (s, ⟨false, "'NoneType' object has no attribute 'wkt'"⟩)
    | some geom =>
      match dispatchFix ops s.currentGeometries (extractIdx errorId).toNat geom fixType params with
      | .failed msg => (s, ⟨false, msg⟩)
      | .applied cur' msg =>
        ({ originalGeometries := s.originalGeometries,
           currentGeometries := cur',
           appliedFixes := s.appliedFixes ++
             [⟨errorId, fixType, ops.wktOf geom, msg, "now"⟩] },
         ⟨true, msg⟩)

/-- The records `export_fixed_wkt` keeps: non-tombstone and non-empty. -/
def survivors (cur : List (Option Geom)) : List Geom :=
  cur.filterMap (fun o =>
    match o with
    | some g => if g.isEmptyG then none else some g
    | none => none)

/-- shapely's `MultiLineString(geoms)` constructor: accepts only
LineString members, raises otherwise. -/
def lineCoordsOf : Geom → Option (List Pt)
  | .lineString cs => some cs
  | _ => none

/-- The member-by-member coordinate extraction of the constructor loop:
any non-LineString member raises. -/
def lineCoordsAll : List Geom → Option (List (List Pt))
  | [] => some []
  | g :: gs =>
    match lineCoordsOf g, lineCoordsAll gs with
    | some cs, some rest => some (cs :: rest)
    | _, _ => none

def mkMultiLineString (gs : List Geom) : Option Geom :=
  (lineCoordsAll gs).map Geom.multiLineString

/-- `export_fixed_wkt`; `none` models an uncaught constructor exception. -/
def exportFixedWkt (ops : ShapelyOps) (s : EngineState) : Option String :=
  match survivors s.currentGeometries with
  | [] => some ""
  | [g] => some (ops.wktOf g)
  | g1 :: g2 :: rest =>
    match mkMultiLineString (g1 :: g2 :: rest) with
    | some coll => some (ops.wktOf coll)
    | none => none

/-- A chain of `apply_fix` calls (id, fix type, params), applied in
order to an engine state. -/
def applyFixChain (ops : ShapelyOps) (s : EngineState)
    (calls : List (List Char × String × Option (List (String × ℚ)))) : EngineState :=
  calls.foldl (fun st c => (applyFix ops st c.1 c.2.1 c.2.2).1) s

/-- A concrete instantiation of the external-library parameters, used to
evaluate the closed scenarios below; the general theorems are proved for
every instantiation. -/
def sampleOps : ShapelyOps :=
  { wktOf := fun _ => "WKT",
    snapTo := fun g _ _ => g,
    simplifyG := fun g _ => g,
    buffer0 := fun g => g,
    makeValid := fun g => g,
    lengthG := fun _ => 0,
    interpolate := fun _ _ => ⟨0, 0⟩ }

/-! ### Lemmas about the string primitives -/

theorem pySplit_ne_nil (sep : Char) (cs : List Char) : pySplit sep cs ≠ [] := by
  induction cs with
  | nil => simp [pySplit]
  | cons c cs ih =>
    simp only [pySplit]
    split
    · simp
    · match h : pySplit sep cs with
      | [] => exact absurd h ih
      | t :: ts => simp [h]

theorem pySplit_append (sep : Char) (a b : List Char) (ha : sep ∉ a) :
    pySplit sep (a ++ sep :: b) = a :: pySplit sep b := by
  induction a with
  | nil => simp [pySplit]
  | cons c a ih =>
    have hc : c ≠ sep := by
      intro h
      exact ha (by simp [h])
    have ha' : sep ∉ a := fun h => ha (List.mem_cons_of_mem _ h)
    simp only [List.cons_append, pySplit, if_neg hc, List.append_eq, ih ha']

theorem pySplit_eq_single (sep : Char) (a : List Char) (ha : sep ∉ a) :
    pySplit sep a = [a] := by
  induction a with
  | nil => simp [pySplit]
  | cons c a ih =>
    have hc : c ≠ sep := by
      intro h
      exact ha (by simp [h])
    have ha' : sep ∉ a := fun h => ha (List.mem_cons_of_mem _ h)
    simp [pySplit, if_neg hc, ih ha']

theorem digitChar_toNat {d : ℕ} (hd : d < 10) : (Nat.digitChar d).toNat - 48 = d := by
  interval_cases d <;> decide

theorem digitChar_isDigit {d : ℕ} (hd : d < 10) : (Nat.digitChar d).isDigit = true := by
  interval_cases d <;> decide

theorem digitChar_ne_dash {d : ℕ} (hd : d < 10) : Nat.digitChar d ≠ '-' := by
  interval_cases d <;> decide

theorem charsToNat_append_digit (xs : List Char) (y : Char) :
    charsToNat (xs ++ [y]) = 10 * charsToNat xs + (y.toNat - 48) := by
  simp [charsToNat, List.foldl_append]

theorem charsToNat_revDigits (L : List ℕ) (h : ∀ d ∈ L, d < 10) :
    charsToNat ((L.reverse).map Nat.digitChar) = Nat.ofDigits 10 L := by
  induction L with
  | nil => simp [charsToNat, Nat.ofDigits_nil]
  | cons d L ih =>
    have hd : d < 10 := h d (by simp)
    have hL : ∀ x ∈ L, x < 10 := fun x hx => h x (by simp [hx])
    rw [List.reverse_cons, List.map_append, List.map_singleton,
      charsToNat_append_digit, ih hL, digitChar_toNat hd, Nat.ofDigits_cons]
    ring

theorem natDigitsAux_eq (fuel : ℕ) :
    ∀ n : ℕ, n ≤ fuel → natDigitsAux fuel n = Nat.digits 10 n := by
  induction fuel with
  | zero =>
    intro n hn
    interval_cases n
    simp [natDigitsAux]
  | succ fuel ih =>
    intro n hn
    cases n with
    | zero => simp [natDigitsAux]
    | succ m =>
      rw [natDigitsAux, ih ((m + 1) / 10) (by omega),
        Nat.digits_def' (by norm_num : 1 < 10) (Nat.succ_pos m)]

theorem natToChars_eq_digits (n : ℕ) :
    natToChars n = if n = 0 then ['0']
      else ((Nat.digits 10 n).reverse.map Nat.digitChar) := by
  unfold natToChars
  by_cases h : n = 0
  · rw [if_pos h, if_pos h]
  · rw [if_neg h, if_neg h, natDigitsAux_eq n n le_rfl]

theorem charsToNat_natToChars (n : ℕ) : charsToNat (natToChars n) = n := by
  by_cases h : n = 0
  · subst h
    decide
  · rw [natToChars_eq_digits, if_neg h,
      charsToNat_revDigits _ (fun d hd => Nat.digits_lt_base (by norm_num) hd),
      Nat.ofDigits_digits]

theorem natToChars_mem_digit {n : ℕ} {c : Char} (hc : c ∈ natToChars n) :
    c.isDigit = true := by
  by_cases h : n = 0
  · subst h
    have h0 : natToChars 0 = ['0'] := by decide
    rw [h0, List.mem_singleton] at hc
    subst hc
    decide
  · rw [natToChars_eq_digits, if_neg h] at hc
    obtain ⟨d, hd, rfl⟩ := List.mem_map.mp hc
    exact digitChar_isDigit (Nat.digits_lt_base (by norm_num) (List.mem_reverse.mp hd))

theorem dash_not_mem_natToChars (n : ℕ) : '-' ∉ natToChars n := by
  intro h
  have := natToChars_mem_digit h
  simp [Char.isDigit] at this

theorem natToChars_ne_nil (n : ℕ) : natToChars n ≠ [] := by
  by_cases h : n = 0
  · subst h
    decide
  · rw [natToChars_eq_digits, if_neg h]
    simp [Nat.digits_ne_nil_iff_ne_zero.mpr h]

theorem pyIsDigitStr_natToChars (n : ℕ) : pyIsDigitStr (natToChars n) = true := by
  rw [pyIsDigitStr]
  rw [Bool.and_eq_true, List.all_eq_true]
  constructor
  · simpa using natToChars_ne_nil n
  · exact fun c hc => natToChars_mem_digit hc

/-- Index resolution of a two-chunk id `tag-N`. -/
theorem extractIdx_tag_num (tag : List Char) (n : ℕ)
    (h1 : '-' ∉ tag) (h2 : pyIsDigitStr tag = false) :
    extractIdx (tag ++ '-' :: natToChars n) = Int.ofNat n := by
  rw [extractIdx, pySplit_append _ _ _ h1,
    pySplit_eq_single _ _ (dash_not_mem_natToChars n)]
  simp [List.find?, h2, pyIsDigitStr_natToChars, charsToNat_natToChars]

/-- Index resolution of a three-chunk id `tag-N-loc`. -/
theorem extractIdx_tag_num_loc (tag loc : List Char) (n : ℕ)
    (h1 : '-' ∉ tag) (h2 : pyIsDigitStr tag = false) :
    extractIdx (tag ++ '-' :: (natToChars n ++ '-' :: loc)) = Int.ofNat n := by
  rw [extractIdx, pySplit_append _ _ _ h1,
    pySplit_append _ _ _ (dash_not_mem_natToChars n)]
  simp [List.find?, h2, pyIsDigitStr_natToChars, charsToNat_natToChars]

/-! ### Structural lemmas about `apply_fix` -/

theorem extractIdx_neg_or_nonneg (errorId : List Char) :
    extractIdx errorId = -1 ∨ 0 ≤ extractIdx errorId := by
  unfold extractIdx
  split
  · right
    exact Int.ofNat_nonneg _
  · left
    rfl

theorem snapStrategy_shape (ops : ShapelyOps) (cur : List (Option Geom)) (idx : ℕ)
    (geom : Geom) (ps : Option (List (String × ℚ)))
    {cur' : List (Option Geom)} {msg : String}
    (h : snapStrategy ops cur idx geom ps = .applied cur' msg) :
    cur' = cur ∨ ∃ v, cur' = cur.set idx v := by
  unfold snapStrategy at h
  split at h <;> cases h
  exact Or.inr ⟨_, rfl⟩

theorem closeStrategy_shape (cur : List (Option Geom)) (idx : ℕ) (geom : Geom)
    {cur' : List (Option Geom)} {msg : String}
    (h : closeStrategy cur idx geom = .applied cur' msg) :
    cur' = cur ∨ ∃ v, cur' = cur.set idx v := by
  unfold closeStrategy at h
  repeat' split at h
  all_goals cases h
  all_goals first
    | exact Or.inl rfl
    | exact Or.inr ⟨_, rfl⟩

theorem reverseStrategy_shape (cur : List (Option Geom)) (idx : ℕ) (geom : Geom)
    {cur' : List (Option Geom)} {msg : String}
    (h : reverseStrategy cur idx geom = .applied cur' msg) :
    cur' = cur ∨ ∃ v, cur' = cur.set idx v := by
  unfold reverseStrategy at h
  split at h
  all_goals cases h
  all_goals first
    | exact Or.inl rfl
    | exact Or.inr ⟨_, rfl⟩

theorem densifyStrategy_shape (ops : ShapelyOps) (cur : List (Option Geom)) (idx : ℕ)
    (geom : Geom) (ps : Option (List (String × ℚ)))
    {cur' : List (Option Geom)} {msg : String}
    (h : densifyStrategy ops cur idx geom ps = .applied cur' msg) :
    cur' = cur ∨ ∃ v, cur' = cur.set idx v := by
  unfold densifyStrategy at h
  repeat' split at h
  all_goals cases h
  all_goals first
    | exact Or.inl rfl
    | exact Or.inr ⟨_, rfl⟩

/-- Every strategy branch either fails or returns the working list
unchanged or overwritten at the target slot. -/
theorem dispatchFix_applied_shape (ops : ShapelyOps) (cur : List (Option Geom))
    (idx : ℕ) (geom : Geom) (ft : String) (ps : Option (List (String × ℚ)))
    {cur' : List (Option Geom)} {msg : String}
    (h : dispatchFix ops cur idx geom ft ps = .applied cur' msg) :
    cur' = cur ∨ ∃ v, cur' = cur.set idx v := by
  unfold dispatchFix at h
  split_ifs at h
  all_goals first
    | exact snapStrategy_shape ops cur idx geom ps h
    | exact closeStrategy_shape cur idx geom h
    | exact reverseStrategy_shape cur idx geom h
    | exact densifyStrategy_shape ops cur idx geom ps h
    | (cases h; first
        | exact Or.inl rfl
        | exact Or.inr ⟨_, rfl⟩)

/-- Master case analysis for `apply_fix`: a failed call returns the state
unchanged; a successful call preserves `original`, appends exactly one
fix record, and changes the working list at most at one in-bounds slot. -/
theorem applyFix_cases (ops : ShapelyOps) (s : EngineState) (e : List Char)
    (ft : String) (ps : Option (List (String × ℚ))) :
    ((applyFix ops s e ft ps).1 = s ∧ (applyFix ops s e ft ps).2.success = false) ∨
    (∃ cur' rec, (applyFix ops s e ft ps).2.success = true ∧
      (applyFix ops s e ft ps).1 =
        ⟨s.originalGeometries, cur', s.appliedFixes ++ [rec]⟩ ∧
      (cur' = s.currentGeometries ∨
        ∃ n v, n < s.currentGeometries.length ∧
          cur' = s.currentGeometries.set n v)) := by
  unfold applyFix
  split
  · exact Or.inl ⟨rfl, rfl⟩
  · rename_i hguard
    split
    · exact Or.inl ⟨rfl, rfl⟩
    · rename_i geom hget
      split
      · exact Or.inl ⟨rfl, rfl⟩
      · rename_i cur' msg heq
        refine Or.inr ⟨cur', ⟨e, ft, ops.wktOf geom, msg, "now"⟩, rfl, rfl, ?_⟩
        rcases dispatchFix_applied_shape ops s.currentGeometries _ geom ft ps heq with
          h | ⟨v, hv⟩
        · exact Or.inl h
        · refine Or.inr ⟨(extractIdx e).toNat, v, ?_, hv⟩
          rcases extractIdx_neg_or_nonneg e with h0 | h0 <;> omega

theorem applyFix_preserves_shape (ops : ShapelyOps) (s : EngineState) (e : List Char)
    (ft : String) (ps : Option (List (String × ℚ))) :
    (applyFix ops s e ft ps).1.currentGeometries.length =
      s.currentGeometries.length ∧
    (applyFix ops s e ft ps).1.originalGeometries = s.originalGeometries := by
  rcases applyFix_cases ops s e ft ps with ⟨h1, _⟩ | ⟨cur', rec, _, h1, h2⟩
  · rw [h1]
    exact ⟨rfl, rfl⟩
  · rw [h1]
    rcases h2 with h | ⟨n, v, _, hv⟩
    · simp [h]
    · simp [hv, List.length_set]

theorem applyFixChain_shape (ops : ShapelyOps)
    (calls : List (List Char × String × Option (List (String × ℚ)))) :
    ∀ s : EngineState,
      (applyFixChain ops s calls).currentGeometries.length =
        s.currentGeometries.length ∧
      (applyFixChain ops s calls).originalGeometries = s.originalGeometries := by
  induction calls with
  | nil => exact fun s => ⟨rfl, rfl⟩
  | cons c cs ih =>
    intro s
    have h1 := applyFix_preserves_shape ops s c.1 c.2.1 c.2.2
    have h2 := ih ((applyFix ops s c.1 c.2.1 c.2.2).1)
    refine ⟨?_, ?_⟩
    · calc (applyFixChain ops s (c :: cs)).currentGeometries.length
          = (applyFixChain ops ((applyFix ops s c.1 c.2.1 c.2.2).1) cs).currentGeometries.length := rfl
        _ = (applyFix ops s c.1 c.2.1 c.2.2).1.currentGeometries.length := h2.1
        _ = s.currentGeometries.length := h1.1
    · calc (applyFixChain ops s (c :: cs)).originalGeometries
          = (applyFixChain ops ((applyFix ops s c.1 c.2.1 c.2.2).1) cs).originalGeometries := rfl
        _ = (applyFix ops s c.1 c.2.1 c.2.2).1.originalGeometries := h2.2
        _ = s.originalGeometries := h1.2

theorem applyFix_log_cases (ops : ShapelyOps) (s : EngineState) (e : List Char)
    (ft : String) (ps : Option (List (String × ℚ))) :
    ((applyFix ops s e ft ps).2.success = true →
      ∃ rec, (applyFix ops s e ft ps).1.appliedFixes = s.appliedFixes ++ [rec]) ∧
    ((applyFix ops s e ft ps).2.success = false →
      (applyFix ops s e ft ps).1.appliedFixes = s.appliedFixes) := by
  rcases applyFix_cases ops s e ft ps with ⟨h1, h2⟩ | ⟨cur', rec, hs, h1, _⟩
  · refine ⟨fun htrue => ?_, fun _ => by rw [h1]⟩
    rw [h2] at htrue
    cases htrue
  · refine ⟨fun _ => ⟨rec, by rw [h1]⟩, fun hfalse => ?_⟩
    rw [hs] at hfalse
    cases hfalse

/-! ### Shared concrete datasets -/

/-- The dataset of spec scenario 2: two LineStrings sharing the exact
endpoint (10, 0). -/
def twoLinesText : String := "LINESTRING(0 0, 10 0)\nLINESTRING(10 0, 10 10)"

/-! ### The claims -/

/-- C1: for every loaded dataset and after any number of `apply_fix`
calls (any fix type, successful or not), the working sequence has the
length of the original sequence; moreover every single call leaves the
working list unchanged or overwrites exactly one in-bounds slot in place,
so index `i` of `working` keeps denoting the same parsed statement as
index `i` of `original`. -/
theorem c1_working_stays_aligned (ops : ShapelyOps) (text : String)
    (calls : List (List Char × String × Option (List (String × ℚ)))) :
    (applyFixChain ops (loadWktContent text) calls).currentGeometries.length =
      (applyFixChain ops (loadWktContent text) calls).originalGeometries.length ∧
    ∀ (s : EngineState) (e : List Char) (ft : String)
      (ps : Option (List (String × ℚ))),
      (applyFix ops s e ft ps).1.currentGeometries = s.currentGeometries ∨
      ∃ n v, n < s.currentGeometries.length ∧
        (applyFix ops s e ft ps).1.currentGeometries = s.currentGeometries.set n v := by
  constructor
  · have h := applyFixChain_shape ops calls (loadWktContent text)
    calc (applyFixChain ops (loadWktContent text) calls).currentGeometries.length
        = (loadWktContent text).currentGeometries.length := h.1
      _ = (loadWktContent text).originalGeometries.length := rfl
      _ = (applyFixChain ops (loadWktContent text) calls).originalGeometries.length := by
          rw [h.2]
  · intro s e ft ps
    rcases applyFix_cases ops s e ft ps with ⟨h1, _⟩ | ⟨cur', rec, _, h1, h2⟩
    · rw [h1]
      exact Or.inl rfl
    · rw [h1]
      rcases h2 with h | ⟨n, v, hn, hv⟩
      · exact Or.inl h
      · exact Or.inr ⟨n, v, hn, hv⟩

theorem c1_witness :
    (applyFixChain sampleOps (loadWktContent twoLinesText)
        [("0".data, "DELETE", none), ("abc".data, "SNAP", none)]).currentGeometries.length =
      (applyFixChain sampleOps (loadWktContent twoLinesText)
        [("0".data, "DELETE", none), ("abc".data, "SNAP", none)]).originalGeometries.length :=
  (c1_working_stays_aligned sampleOps twoLinesText
    [("0".data, "DELETE", none), ("abc".data, "SNAP", none)]).1

/-- C2: `apply_fix` never changes the original sequence, whatever the
finding id, fix type and parameters; only `working` and the fix log can
differ between the input and output states. -/
theorem c2_apply_fix_preserves_original (ops : ShapelyOps) (s : EngineState)
    (errorId : List Char) (fixType : String)
    (params : Option (List (String × ℚ))) :
    (applyFix ops s errorId fixType params).1.originalGeometries =
      s.originalGeometries :=
  (applyFix_preserves_shape ops s errorId fixType params).2

theorem c2_witness :
    (applyFix sampleOps (loadWktContent twoLinesText) "0".data "DELETE" none).1.originalGeometries =
      (loadWktContent twoLinesText).originalGeometries :=
  c2_apply_fix_preserves_original sampleOps (loadWktContent twoLinesText)
    "0".data "DELETE" none

/-- C3: a `{success: true}` outcome of `apply_fix` appends exactly one
fix record to the log, and a `{success: false}` outcome appends none. -/
theorem c3_success_iff_one_record (ops : ShapelyOps) (s : EngineState)
    (errorId : List Char) (fixType : String)
    (params : Option (List (String × ℚ))) :
    ((applyFix ops s errorId fixType params).2.success = true →
      ∃ rec, (applyFix ops s errorId fixType params).1.appliedFixes =
        s.appliedFixes ++ [rec]) ∧
    ((applyFix ops s errorId fixType params).2.success = false →
      (applyFix ops s errorId fixType params).1.appliedFixes = s.appliedFixes) :=
  applyFix_log_cases ops s errorId fixType params

theorem c3_witness :
    ∃ rec,
      (applyFix sampleOps (loadWktContent twoLinesText) "0".data "DELETE" none).1.appliedFixes =
        (loadWktContent twoLinesText).appliedFixes ++ [rec] :=
  (c3_success_iff_one_record sampleOps (loadWktContent twoLinesText)
    "0".data "DELETE" none).1 (by decide)

/-- C7 (amended): `get` on an out-of-range index does not fail with a
distinguishable IndexOutOfRange condition; it silently returns `None`,
the very value a tombstone slot holds. -/
theorem c7_get_out_of_range_is_none (s : EngineState) (index : Int)
    (h : index < 0 ∨ (s.currentGeometries.length : Int) ≤ index) :
    getGeometry s index = none := by
  unfold getGeometry
  have hcond : ¬(0 ≤ index ∧ index < (s.currentGeometries.length : Int)) := by omega
  rw [if_neg hcond]

/-- C7 counterexample: on the dataset whose single slot is a tombstone,
the out-of-range read `get 5` returns exactly the same value as the
in-range tombstone read `get 0`: there is no error outcome
distinguishable from a tombstone. -/
theorem c7_counterexample :
    (loadWktContent "XYZ)").currentGeometries.length = 1 ∧
    getGeometry (loadWktContent "XYZ)") 0 = none ∧
    getGeometry (loadWktContent "XYZ)") 5 = none := by
  decide

theorem c7_witness :
    getGeometry (loadWktContent "XYZ)") 5 = none :=
  c7_get_out_of_range_is_none (loadWktContent "XYZ)") 5 (by decide)

/-- C8 (amended): a finding id with no all-digit token resolves to index
-1 and `apply_fix` returns `{success: false,
message: "Invalid geometry index: -1"}` (the claimed message plus the
formatted index), appends nothing to the fix log and mutates nothing. -/
theorem c8_no_numeric_token (ops : ShapelyOps) (s : EngineState)
    (errorId : List Char) (fixType : String)
    (params : Option (List (String × ℚ)))
    (h : (pySplit '-' errorId).find? pyIsDigitStr = none) :
    applyFix ops s errorId fixType params =
      (s, ⟨false, "Invalid geometry index: -1"⟩) := by
  have hidx : extractIdx errorId = -1 := by
    rw [extractIdx, h]
  unfold applyFix
  rw [hidx]
  rw [if_pos (Or.inl rfl)]
  rfl

/-- C8 counterexample: the returned message is
"Invalid geometry index: -1", not the claimed "Invalid geometry index". -/
theorem c8_counterexample :
    (applyFix sampleOps (loadWktContent twoLinesText)
        "dangle-x-start".data "DELETE" none).2.success = false ∧
    (applyFix sampleOps (loadWktContent twoLinesText)
        "dangle-x-start".data "DELETE" none).2.message =
      "Invalid geometry index: -1" ∧
    (applyFix sampleOps (loadWktContent twoLinesText)
        "dangle-x-start".data "DELETE" none).2.message ≠
      "Invalid geometry index" ∧
    (applyFix sampleOps (loadWktContent twoLinesText)
        "dangle-x-start".data "DELETE" none).1 = loadWktContent twoLinesText := by
  decide

theorem c8_witness :
    applyFix sampleOps (loadWktContent twoLinesText) "dangle-x-start".data "OTHER" none =
      (loadWktContent twoLinesText, ⟨false, "Invalid geometry index: -1"⟩) :=
  c8_no_numeric_token sampleOps (loadWktContent twoLinesText)
    "dangle-x-start".data "OTHER" none (by decide)

theorem getD_set_self {α : Type} (l : List α) (n : ℕ) (x d : α)
    (h : n < l.length) : (l.set n x).getD n d = x := by
  induction l generalizing n with
  | nil => simp at h
  | cons a t ih =>
    cases n with
    | zero => rfl
    | succ m => exact ih m (by simpa using h)

theorem filterMap_set_none_eq_eraseIdx {α β : Type} (f : α → Option β) (x : α)
    (hx : f x = none) :
    ∀ (l : List α) (n : ℕ),
      (l.set n x).filterMap f = (l.eraseIdx n).filterMap f := by
  intro l
  induction l with
  | nil => intro n; rfl
  | cons a t ih =>
    intro n
    cases n with
    | zero => simp [List.filterMap_cons, hx]
    | succ m => simp [List.filterMap_cons, ih m]

theorem dispatchFix_delete (ops : ShapelyOps) (cur : List (Option Geom)) (idx : ℕ)
    (geom : Geom) (fixType : String) (ps : Option (List (String × ℚ)))
    (hft : pyUpper fixType = "DELETE") :
    dispatchFix ops cur idx geom fixType ps =
      .applied (cur.set idx none) "Deleted geometry" := by
  unfold dispatchFix
  rw [hft]
  rfl

/-- C6 (amended): `apply_fix` with DELETE on an in-bounds index holding a
live (non-tombstone) geometry always succeeds: the slot becomes a
tombstone, `get` on that index afterwards returns `None`, the export
survivor list is exactly the survivor list with that record removed, and
the fix log grows by one. (On a tombstone slot DELETE fails instead; see
the counterexample.) -/
theorem c6_delete_on_live_slot (ops : ShapelyOps) (s : EngineState)
    (errorId : List Char) (fixType : String) (params : Option (List (String × ℚ)))
    (n : ℕ) (g : Geom)
    (hidx : extractIdx errorId = (n : Int))
    (hn : n < s.currentGeometries.length)
    (hget : s.currentGeometries.getD n none = some g)
    (hft : pyUpper fixType = "DELETE") :
    (applyFix ops s errorId fixType params).2.success = true ∧
    (applyFix ops s errorId fixType params).1.currentGeometries =
      s.currentGeometries.set n none ∧
    getGeometry (applyFix ops s errorId fixType params).1 (n : Int) = none ∧
    survivors (applyFix ops s errorId fixType params).1.currentGeometries =
      survivors (s.currentGeometries.eraseIdx n) ∧
    (applyFix ops s errorId fixType params).1.appliedFixes.length =
      s.appliedFixes.length + 1 := by
  have hguard : ¬(extractIdx errorId = -1 ∨
      (s.currentGeometries.length : Int) ≤ extractIdx errorId) := by
    rw [hidx]
    omega
  have happ : applyFix ops s errorId fixType params =
      ({ originalGeometries := s.originalGeometries,
         currentGeometries := s.currentGeometries.set n none,
         appliedFixes := s.appliedFixes ++
           [⟨errorId, fixType, ops.wktOf g, "Deleted geometry", "now"⟩] },
       ⟨true, "Deleted geometry"⟩) := by
    unfold applyFix
    rw [if_neg hguard, hidx]
    simp only [Int.toNat_natCast]
    rw [hget]
    simp only [dispatchFix_delete ops s.currentGeometries n g fixType params hft]
  rw [happ]
  refine ⟨rfl, rfl, ?_, ?_, by simp⟩
  · unfold getGeometry
    have hcond : (0 : Int) ≤ (n : Int) ∧
        (n : Int) < (((s.currentGeometries.set n none).length : ℕ) : Int) := by
      simp only [List.length_set]
      omega
    rw [if_pos hcond]
    simp only [Int.toNat_natCast]
    exact getD_set_self _ n none none (by simpa using hn)
  · unfold survivors
    exact filterMap_set_none_eq_eraseIdx _ none rfl s.currentGeometries n

/-- C6 counterexample: on a dataset whose slot 0 is a tombstone (a parse
failure), DELETE on the in-bounds index 0 fails (the source raises at
`geom.wkt` and catches the exception), so DELETE is not failure-free. -/
theorem c6_counterexample :
    (loadWktContent "XYZ)").currentGeometries = [none] ∧
    (applyFix sampleOps (loadWktContent "XYZ)") "0".data "DELETE" none).2.success = false ∧
    (applyFix sampleOps (loadWktContent "XYZ)") "0".data "DELETE" none).1 =
      loadWktContent "XYZ)" := by
  decide

theorem c6_witness :
    (applyFix sampleOps (loadWktContent twoLinesText) "0".data "DELETE" none).2.success = true ∧
    (applyFix sampleOps (loadWktContent twoLinesText) "0".data "DELETE" none).1.currentGeometries =
      (loadWktContent twoLinesText).currentGeometries.set 0 none ∧
    getGeometry (applyFix sampleOps (loadWktContent twoLinesText) "0".data "DELETE" none).1
      ((0 : ℕ) : Int) = none ∧
    survivors (applyFix sampleOps (loadWktContent twoLinesText) "0".data "DELETE" none).1.currentGeometries =
      survivors ((loadWktContent twoLinesText).currentGeometries.eraseIdx 0) ∧
    (applyFix sampleOps (loadWktContent twoLinesText) "0".data "DELETE" none).1.appliedFixes.length =
      (loadWktContent twoLinesText).appliedFixes.length + 1 :=
  c6_delete_on_live_slot sampleOps (loadWktContent twoLinesText) "0".data "DELETE" none
    0 (Geom.lineString [⟨0, 0⟩, ⟨10, 0⟩]) (by decide) (by decide) (by decide) (by decide)

theorem lineCoordsAll_isSome_iff (gs : List Geom) :
    (lineCoordsAll gs).isSome = true ↔ ∀ g ∈ gs, g.geomType = "LineString" := by
  induction gs with
  | nil => simp [lineCoordsAll]
  | cons g gs ih =>
    simp only [List.mem_cons]
    constructor
    · intro h
      unfold lineCoordsAll at h
      rcases hg : lineCoordsOf g with _ | cs
      · rw [hg] at h
        simp at h
      · rcases hr : lineCoordsAll gs with _ | rest
        · rw [hg, hr] at h
          simp at h
        · have hmem := ih.mp (by rw [hr]; rfl)
          intro x hx
          rcases hx with rfl | hx
          · cases x with
            | lineString cs2 => rfl
            | point p => simp [lineCoordsOf] at hg
            | multiLineString ps => simp [lineCoordsOf] at hg
            | polygon e hs => simp [lineCoordsOf] at hg
          · exact hmem x hx
    · intro h
      have hg : ∃ cs, lineCoordsOf g = some cs := by
        have hgt := h g (Or.inl rfl)
        cases g with
        | lineString cs2 => exact ⟨cs2, rfl⟩
        | point p => simp [Geom.geomType] at hgt
        | multiLineString ps => simp [Geom.geomType] at hgt
        | polygon e hs => simp [Geom.geomType] at hgt
      have hr : (lineCoordsAll gs).isSome = true :=
        ih.mpr (fun x hx => h x (Or.inr hx))
      rcases hg with ⟨cs, hg⟩
      rcases hrr : lineCoordsAll gs with _ | rest
      · rw [hrr] at hr
        simp at hr
      · unfold lineCoordsAll
        rw [hg, hrr]
        rfl

/-- C9 (amended): `export_geometry` returns the empty string when no
non-tombstone non-empty record remains; the single record's text form
when exactly one remains; and when more than one remains it builds a
`MultiLineString` collection of the survivors and emits its text form,
which succeeds exactly when every survivor is a LineString — with any
other survivor the constructor raises and no text is produced. -/
theorem c9_export_cases (ops : ShapelyOps) (s : EngineState) :
    (survivors s.currentGeometries = [] → exportFixedWkt ops s = some "") ∧
    (∀ g, survivors s.currentGeometries = [g] →
      exportFixedWkt ops s = some (ops.wktOf g)) ∧
    (∀ g1 g2 rest, survivors s.currentGeometries = g1 :: g2 :: rest →
      (∀ coll, mkMultiLineString (g1 :: g2 :: rest) = some coll →
        exportFixedWkt ops s = some (ops.wktOf coll)) ∧
      (mkMultiLineString (g1 :: g2 :: rest) = none → exportFixedWkt ops s = none)) ∧
    (∀ gs : List Geom,
      (mkMultiLineString gs).isSome = true ↔ ∀ g ∈ gs, g.geomType = "LineString") := by
  refine ⟨?_, ?_, ?_, ?_⟩
  · intro h
    unfold exportFixedWkt
    rw [h]
  · intro g h
    unfold exportFixedWkt
    rw [h]
  · intro g1 g2 rest h
    have hexp : exportFixedWkt ops s =
        (match mkMultiLineString (g1 :: g2 :: rest) with
         | some coll => some (ops.wktOf coll)
         | none => none) := by
      unfold exportFixedWkt
      rw [h]
    constructor
    · intro coll hcoll
      rw [hexp, hcoll]
    · intro hcoll
      rw [hexp, hcoll]
  · intro gs
    rw [← lineCoordsAll_isSome_iff]
    unfold mkMultiLineString
    cases lineCoordsAll gs <;> simp

/-- C9 counterexample: with two POINT survivors, `export_geometry` does
not emit a collection text; the `MultiLineString(...)` constructor
raises. -/
theorem c9_counterexample :
    survivors (loadWktContent "POINT(0 0)\nPOINT(5 5)").currentGeometries =
      [Geom.point ⟨0, 0⟩, Geom.point ⟨5, 5⟩] ∧
    exportFixedWkt sampleOps (loadWktContent "POINT(0 0)\nPOINT(5 5)") = none := by
  decide

theorem c9_witness :
    exportFixedWkt sampleOps (loadWktContent "") = some "" :=
  (c9_export_cases sampleOps (loadWktContent "")).1 (by decide)

/-! ### C4: the dangle rule -/

theorem isConnectedEp_eq_true_iff (ld : List LineRec) (tol : ℚ) (ep : Endpoint) :
    isConnectedEp ld tol ep = true ↔
      ∃ other ∈ ld, ep.lineIdx ≠ other.id ∧ other.geom.isEmptyG = false ∧
        distLeTol (ptGeomDistSq ep.pt other.geom) tol = true := by
  unfold isConnectedEp
  rw [List.any_eq_true]
  simp only [Bool.and_eq_true, decide_eq_true_eq, Bool.not_eq_true', and_assoc]

theorem findShortLines_ftype (ops : ShapelyOps) (ld : List LineRec) (minLen : ℚ) :
    ∀ f ∈ findShortLines ops ld minLen, f.ftype = shortType := by
  intro f hf
  unfold findShortLines at hf
  rw [List.mem_filterMap] at hf
  obtain ⟨item, _, hi⟩ := hf
  split at hi
  · cases hi
  · split at hi
    · cases hi
      rfl
    · cases hi

theorem findShortLines_filter_dangle (ops : ShapelyOps) (ld : List LineRec)
    (minLen : ℚ) :
    (findShortLines ops ld minLen).filter (fun f => f.ftype = dangleType) = [] := by
  rw [List.filter_eq_nil_iff]
  intro f hf
  have := findShortLines_ftype ops ld minLen f hf
  simp [this, shortType, dangleType]

/-- The dataset of the C4 scenario, parsed. -/
theorem loadLinesData_twoLines :
    loadLinesData twoLinesText =
      [⟨0, 1, .lineString [⟨0, 0⟩, ⟨10, 0⟩]⟩,
       ⟨1, 2, .lineString [⟨10, 0⟩, ⟨10, 10⟩]⟩] := by
  decide

/-- C4 (amended): an endpoint of a line part is reported as a Dangle if
and only if no other record's full geometry lies within the distance
tolerance (`<=`, default 0.5) of the endpoint and the *owning record* is
not a shapely ring, i.e. a LineString that is closed and simple — the
exemption looks at the whole record, not the owning part, so a
self-closing part of a MultiLineString is still reported (see the
counterexample). In particular the two-LineString dataset sharing
endpoint (10, 0) yields exactly the two dangle findings (0,0) and
(10,10). -/
theorem c4_dangle_characterization (ops : ShapelyOps) :
    (∀ (ld : List LineRec) (tol : ℚ) (f : Finding),
      f ∈ findDangles ld tol ↔
        ∃ ep ∈ collectEndpoints ld,
          ¬(∃ other ∈ ld, ep.lineIdx ≠ other.id ∧ other.geom.isEmptyG = false ∧
              distLeTol (ptGeomDistSq ep.pt other.geom) tol = true) ∧
          ringExempt ld ep = false ∧ f = mkDangleFinding ep) ∧
    ((runGeometryQa ops twoLinesText).filter (fun f => f.ftype = dangleType)).map
      (fun f => f.errorPoint) = [some ⟨0, 0⟩, some ⟨10, 10⟩] := by
  constructor
  · intro ld tol f
    unfold findDangles
    rw [List.mem_filterMap]
    constructor
    · rintro ⟨ep, hep, hf⟩
      by_cases hc : isConnectedEp ld tol ep = true
      · rw [if_pos hc] at hf
        cases hf
      · rw [if_neg hc] at hf
        by_cases hr : ringExempt ld ep = true
        · rw [if_pos hr] at hf
          cases hf
        · rw [if_neg hr] at hf
          cases hf
          exact ⟨ep, hep, (not_congr (isConnectedEp_eq_true_iff ld tol ep)).mp hc,
            Bool.not_eq_true _ ▸ hr, rfl⟩
    · rintro ⟨ep, hep, hconn, hring, rfl⟩
      refine ⟨ep, hep, ?_⟩
      have hc : ¬ isConnectedEp ld tol ep = true :=
        (not_congr (isConnectedEp_eq_true_iff ld tol ep)).mpr hconn
      rw [if_neg hc, if_neg (by rw [hring]; exact Bool.false_ne_true)]
  · have hqa : runGeometryQa ops twoLinesText =
        validityFindings (loadLinesData twoLinesText) ++
          findDangles (loadLinesData twoLinesText) TOLERANCE ++
          findShortLines ops (loadLinesData twoLinesText) MIN_LINE_LENGTH := by
      unfold runGeometryQa
      rw [if_neg (by decide)]
    rw [hqa, List.filter_append, List.filter_append,
      findShortLines_filter_dangle, loadLinesData_twoLines]
    decide

/-- The single-record MultiLineString dataset whose only part is
self-closing. -/
def mlsRingText : String := "MULTILINESTRING((0 0, 1 0, 1 1, 0 0))"

/-- C4 counterexample: the only part of the only record is a self-closing
ring (first coordinate equals last), no other record exists, and yet the
code reports its two endpoints as dangles: the ring exemption tests the
owning record's type ('MultiLineString' here), never the part. The claim
predicts zero dangle findings for this dataset. -/
theorem c4_counterexample :
    loadLinesData mlsRingText =
      [⟨0, 1, .multiLineString [[⟨0, 0⟩, ⟨1, 0⟩, ⟨1, 1⟩, ⟨0, 0⟩]]⟩] ∧
    ((runGeometryQa sampleOps mlsRingText).filter
        (fun f => f.ftype = dangleType)).length = 2 := by
  decide

theorem c4_witness :
    mkDangleFinding ⟨⟨0, 0⟩, 0, 1, "start"⟩ ∈
      findDangles (loadLinesData twoLinesText) TOLERANCE ∧
    ((runGeometryQa sampleOps twoLinesText).filter (fun f => f.ftype = dangleType)).map
      (fun f => f.errorPoint) = [some ⟨0, 0⟩, some ⟨10, 10⟩] :=
  ⟨((c4_dangle_characterization sampleOps).1 (loadLinesData twoLinesText) TOLERANCE
      (mkDangleFinding ⟨⟨0, 0⟩, 0, 1, "start"⟩)).mpr
      ⟨⟨⟨0, 0⟩, 0, 1, "start"⟩, by decide, by decide, by decide, rfl⟩,
    (c4_dangle_characterization sampleOps).2⟩

/-! ### C10: finding ids resolve to line numbers, not geometry indices -/

/-- C10: every finding with an id carries its statement's 1-based source
line number as the first all-digit token of the id (for every dataset and
every instantiation of the external operations); consequently, feeding a
diagnose-produced id back to `apply_fix` resolves the *line number* as
the target index, not the finding's `geometry_index`: on the
two-LineString dataset, the dangle finding "dangle-1-start" has
`geometry_index` 0, but `apply_fix` with that id and DELETE tombstones
slot 1. -/
theorem c10_id_first_token_is_line_number (ops : ShapelyOps) (text : String) :
    (∀ f ∈ runGeometryQa ops text, ∀ idStr, f.fid = some idStr →
      ∃ n, f.lineNumber = some n ∧ extractIdx idStr = Int.ofNat n) ∧
    (∃ f ∈ runGeometryQa sampleOps twoLinesText,
      f.fid = some "dangle-1-start".data ∧ f.geometryIndex = some 0) ∧
    extractIdx "dangle-1-start".data = 1 ∧
    (applyFix sampleOps (loadWktContent twoLinesText) "dangle-1-start".data
        "DELETE" none).1.currentGeometries =
      [some (.lineString [⟨0, 0⟩, ⟨10, 0⟩]), none] := by
  refine ⟨?_, by decide, by decide, by decide⟩
  intro f hf idStr hid
  unfold runGeometryQa at hf
  split at hf
  · rw [List.mem_singleton] at hf
    rw [hf] at hid
    simp [insufficientFinding] at hid
  · rw [List.mem_append, List.mem_append] at hf
    rcases hf with (hv | hd) | hs
    · rw [validityFindings, List.mem_filterMap] at hv
      obtain ⟨item, _, hi⟩ := hv
      split at hi
      · cases hi
      · cases hi
        cases hid
        exact ⟨item.lineNo, rfl,
          extractIdx_tag_num "invalid".data item.lineNo (by decide) (by decide)⟩
    · rw [findDangles, List.mem_filterMap] at hd
      obtain ⟨ep, _, hi⟩ := hd
      split at hi
      · cases hi
      · split at hi
        · cases hi
        · cases hi
          cases hid
          exact ⟨ep.lineNo, rfl,
            extractIdx_tag_num_loc "dangle".data ep.loc.data ep.lineNo
              (by decide) (by decide)⟩
    · rw [findShortLines, List.mem_filterMap] at hs
      obtain ⟨item, _, hi⟩ := hs
      split at hi
      · cases hi
      · split at hi
        · cases hi
          cases hid
          exact ⟨item.lineNo, rfl,
            extractIdx_tag_num "short".data item.lineNo (by decide) (by decide)⟩
        · cases hi

theorem c10_witness :
    ∃ n, (Finding.mk (some "dangle-1-start".data) dangleType (some 0) (some 1)
        "HIGH" (some ⟨0, 0⟩)).lineNumber = some n ∧
      extractIdx "dangle-1-start".data = Int.ofNat n :=
  (c10_id_first_token_is_line_number sampleOps twoLinesText).1
    (Finding.mk (some "dangle-1-start".data) dangleType (some 0) (some 1)
      "HIGH" (some ⟨0, 0⟩))
    (by decide) "dangle-1-start".data rfl

/-! ### C5: the SNAP strategy -/

/-- A snap candidate of the loop body for the element at loop index `i`:
the element is a live geometry other than the target, its distance to the
target is defined (not nan) and strictly below the tolerance. -/
def HeadCand (geom : Geom) (tol : ℚ) (idx : ℕ) (other : Option Geom) (i : ℕ)
    (og : Geom) (d : ℚ) : Prop :=
  i ≠ idx ∧ other = some og ∧ geomGeomDistSq geom og = some d ∧
    0 < tol ∧ d < tol * tol

/-- A snap candidate inside a list suffix whose first element has loop
index `i0`. -/
def ScanCand (geom : Geom) (tol : ℚ) (idx : ℕ) (l : List (Option Geom)) (i0 : ℕ)
    (j : ℕ) (og : Geom) (d : ℚ) : Prop :=
  i0 + j ≠ idx ∧ l.get? j = some (some og) ∧ geomGeomDistSq geom og = some d ∧
    0 < tol ∧ d < tol * tol

theorem scanCand_zero {geom : Geom} {tol : ℚ} {idx : ℕ} {o : Option Geom}
    {rest : List (Option Geom)} {i0 : ℕ} {og : Geom} {d : ℚ} :
    ScanCand geom tol idx (o :: rest) i0 0 og d ↔
      HeadCand geom tol idx o i0 og d := by
  unfold ScanCand HeadCand
  rw [Nat.add_zero, List.get?_cons_zero, Option.some.injEq]

theorem scanCand_succ {geom : Geom} {tol : ℚ} {idx : ℕ} {o : Option Geom}
    {rest : List (Option Geom)} {i0 j : ℕ} {og : Geom} {d : ℚ} :
    ScanCand geom tol idx (o :: rest) i0 (j + 1) og d ↔
      ScanCand geom tol idx rest (i0 + 1) j og d := by
  unfold ScanCand
  rw [List.get?_cons_succ, Nat.add_succ, Nat.succ_add]

theorem snapStep_none {geom : Geom} {tol : ℚ} {idx : ℕ} {other : Option Geom}
    {i : ℕ} {best : Option (ℚ × Geom)}
    (h : snapStep geom tol idx other i best = none) :
    best = none ∧ ∀ og d, ¬ HeadCand geom tol idx other i og d := by
  by_cases hii : i = idx
  · unfold snapStep at h
    rw [if_pos hii] at h
    exact ⟨h, fun og d hc => hc.1 hii⟩
  · rcases other with _ | og
    · simp only [snapStep, if_neg hii] at h
      refine ⟨h, fun og d hc => ?_⟩
      exact absurd hc.2.1 (by simp)
    · rcases hdist : geomGeomDistSq geom og with _ | dSq
      · simp only [snapStep, if_neg hii, hdist] at h
        refine ⟨h, fun og' d hc => ?_⟩
        have hog : og = og' := by simpa using hc.2.1
        rw [hog, hc.2.2.1] at hdist
        cases hdist
      · simp only [snapStep, if_neg hii, hdist] at h
        split at h
        · cases h
        · rename_i hcond
          refine ⟨h, fun og' d hc => ?_⟩
          have hog : og = og' := by simpa using hc.2.1
          have hd : d = dSq := by
            rw [hog, hc.2.2.1] at hdist
            simpa using hdist
          subst hd
          subst h
          exact hcond (by simp [hc.2.2.2.1, hc.2.2.2.2])

theorem snapStep_some {geom : Geom} {tol : ℚ} {idx : ℕ} {other : Option Geom}
    {i : ℕ} {best : Option (ℚ × Geom)} {m : ℚ} {g : Geom}
    (h : snapStep geom tol idx other i best = some (m, g)) :
    (best = some (m, g) ∨ HeadCand geom tol idx other i g m) ∧
    (∀ og d, HeadCand geom tol idx other i og d → m ≤ d) ∧
    (∀ m' g', best = some (m', g') → m ≤ m') := by
  by_cases hii : i = idx
  · unfold snapStep at h
    rw [if_pos hii] at h
    refine ⟨Or.inl h, fun og d hc => absurd hii hc.1, fun m' g' hb => ?_⟩
    rw [h, Option.some.injEq, Prod.mk.injEq] at hb
    exact le_of_eq hb.1
  · rcases other with _ | og
    · simp only [snapStep, if_neg hii] at h
      refine ⟨Or.inl h, fun og d hc => absurd hc.2.1 (by simp), fun m' g' hb => ?_⟩
      rw [h, Option.some.injEq, Prod.mk.injEq] at hb
      exact le_of_eq hb.1
    · rcases hdist : geomGeomDistSq geom og with _ | dSq
      · simp only [snapStep, if_neg hii, hdist] at h
        refine ⟨Or.inl h, fun og' d hc => ?_, fun m' g' hb => ?_⟩
        · have hog : og = og' := by simpa using hc.2.1
          rw [hog, hc.2.2.1] at hdist
          cases hdist
        · rw [h, Option.some.injEq, Prod.mk.injEq] at hb
          exact le_of_eq hb.1
      · simp only [snapStep, if_neg hii, hdist] at h
        split at h
        · rename_i hcond
          rw [Option.some.injEq, Prod.mk.injEq] at h
          obtain ⟨hm, hg⟩ := h
          subst hm
          simp only [Bool.and_eq_true, decide_eq_true_eq] at hcond
          refine ⟨Or.inr ⟨hii, by rw [hg], by rw [← hg]; exact hdist,
              hcond.1.2, hcond.2⟩,
            fun og' d hc => ?_, fun m' g' hb => ?_⟩
          · have hog : og = og' := by simpa using hc.2.1
            have hgd := hc.2.2.1
            rw [← hog, hdist] at hgd
            exact le_of_eq (by simpa using hgd)
          · have hbetter := hcond.1.1
            rw [hb] at hbetter
            exact le_of_lt (by simpa using hbetter)
        · rename_i hcond
          refine ⟨Or.inl h, fun og' d hc => ?_, fun m' g' hb => ?_⟩
          · have hog : og = og' := by simpa using hc.2.1
            have hd : d = dSq := by
              rw [hog, hc.2.2.1] at hdist
              simpa using hdist
            subst hd
            subst h
            refine le_of_not_lt (fun hlt => hcond ?_)
            simp only [Bool.and_eq_true, decide_eq_true_eq]
            exact ⟨⟨hlt, hc.2.2.2.1⟩, hc.2.2.2.2⟩
          · rw [h, Option.some.injEq, Prod.mk.injEq] at hb
            exact le_of_eq hb.1

theorem snapScanAux_spec (geom : Geom) (tol : ℚ) (idx : ℕ) :
    ∀ (l : List (Option Geom)) (i0 : ℕ) (best : Option (ℚ × Geom)),
      (snapScanAux geom tol idx l i0 best = none →
        best = none ∧ ∀ j og d, ¬ ScanCand geom tol idx l i0 j og d) ∧
      (∀ m g, snapScanAux geom tol idx l i0 best = some (m, g) →
        (best = some (m, g) ∨ ∃ j, ScanCand geom tol idx l i0 j g m) ∧
        (∀ j og d, ScanCand geom tol idx l i0 j og d → m ≤ d) ∧
        (∀ m' g', best = some (m', g') → m ≤ m')) := by
  intro l
  induction l with
  | nil =>
    intro i0 best
    constructor
    · intro h
      refine ⟨h, ?_⟩
      intro j og d hc
      obtain ⟨_, h2, _⟩ := hc
      cases j <;> cases h2
    · intro m g h
      refine ⟨Or.inl h, ?_, ?_⟩
      · intro j og d hc
        obtain ⟨_, h2, _⟩ := hc
        cases j <;> cases h2
      · intro m' g' hb
        have h' : best = some (m, g) := h
        rw [h', Option.some.injEq, Prod.mk.injEq] at hb
        exact le_of_eq hb.1
  | cons o rest ih =>
    intro i0 best
    have hstep : ∀ b, snapScanAux geom tol idx (o :: rest) i0 b =
        snapScanAux geom tol idx rest (i0 + 1) (snapStep geom tol idx o i0 b) :=
      fun b => rfl
    constructor
    · intro h
      rw [hstep] at h
      obtain ⟨hb', hnc⟩ := (ih (i0 + 1) (snapStep geom tol idx o i0 best)).1 h
      obtain ⟨hbnone, hnohead⟩ := snapStep_none hb'
      refine ⟨hbnone, ?_⟩
      intro j og d hc
      cases j with
      | zero => exact hnohead og d (scanCand_zero.mp hc)
      | succ j => exact hnc j og d (scanCand_succ.mp hc)
    · intro m g h
      rw [hstep] at h
      obtain ⟨horig, hmin, hbound⟩ :=
        (ih (i0 + 1) (snapStep geom tol idx o i0 best)).2 m g h
      rcases hstep2 : snapStep geom tol idx o i0 best with _ | ⟨m2, g2⟩
      · obtain ⟨hbnone, hnohead⟩ := snapStep_none hstep2
        refine ⟨?_, ?_, ?_⟩
        · rcases horig with hor | ⟨j, hj⟩
          · rw [hstep2] at hor
            cases hor
          · exact Or.inr ⟨j + 1, scanCand_succ.mpr hj⟩
        · intro j og d hc
          cases j with
          | zero => exact absurd (scanCand_zero.mp hc) (hnohead og d)
          | succ j => exact hmin j og d (scanCand_succ.mp hc)
        · intro m' g' hb
          rw [hbnone] at hb
          cases hb
      · obtain ⟨sorig, smin, sbound⟩ := snapStep_some hstep2
        have hmm : m ≤ m2 := hbound m2 g2 hstep2
        refine ⟨?_, ?_, ?_⟩
        · rcases horig with hor | ⟨j, hj⟩
          · rw [hstep2, Option.some.injEq, Prod.mk.injEq] at hor
            obtain ⟨hm2, hg2⟩ := hor
            subst hm2
            subst hg2
            rcases sorig with sb | shead
            · exact Or.inl sb
            · exact Or.inr ⟨0, scanCand_zero.mpr shead⟩
          · exact Or.inr ⟨j + 1, scanCand_succ.mpr hj⟩
        · intro j og d hc
          cases j with
          | zero => exact le_trans hmm (smin og d (scanCand_zero.mp hc))
          | succ j => exact hmin j og d (scanCand_succ.mp hc)
        · intro m' g' hb
          exact le_trans hmm (sbound m' g' hb)

/-- A snap candidate for target slot `idx` holding `geom`: another slot
with a live geometry whose distance to the target is defined (not nan)
and strictly below the tolerance. -/
def SnapCandidate (cur : List (Option Geom)) (idx : ℕ) (geom : Geom) (tol : ℚ)
    (j : ℕ) (og : Geom) (d : ℚ) : Prop :=
  j ≠ idx ∧ cur.get? j = some (some og) ∧ geomGeomDistSq geom og = some d ∧
    0 < tol ∧ d < tol * tol

instance (cur : List (Option Geom)) (idx : ℕ) (geom : Geom) (tol : ℚ)
    (j : ℕ) (og : Geom) (d : ℚ) :
    Decidable (SnapCandidate cur idx geom tol j og d) := by
  unfold SnapCandidate
  infer_instance

theorem scanCand_iff_snapCandidate {geom : Geom} {tol : ℚ} {idx : ℕ}
    {cur : List (Option Geom)} {j : ℕ} {og : Geom} {d : ℚ} :
    ScanCand geom tol idx cur 0 j og d ↔ SnapCandidate cur idx geom tol j og d := by
  unfold ScanCand SnapCandidate
  rw [Nat.zero_add]

theorem snapScan_spec (cur : List (Option Geom)) (idx : ℕ) (geom : Geom) (tol : ℚ) :
    (snapScan cur idx geom tol = none ↔
      ∀ j og d, ¬ SnapCandidate cur idx geom tol j og d) ∧
    (∀ m g, snapScan cur idx geom tol = some (m, g) →
      (∃ j, SnapCandidate cur idx geom tol j g m) ∧
      (∀ j og d, SnapCandidate cur idx geom tol j og d → m ≤ d)) := by
  constructor
  · constructor
    · intro h
      have hsp := (snapScanAux_spec geom tol idx cur 0 none).1 h
      exact fun j og d hc => hsp.2 j og d (scanCand_iff_snapCandidate.mpr hc)
    · intro h
      rcases hres : snapScan cur idx geom tol with _ | mg
      · rfl
      · obtain ⟨horig, _, _⟩ :=
          (snapScanAux_spec geom tol idx cur 0 none).2 mg.1 mg.2 hres
        rcases horig with hb | ⟨j, hj⟩
        · cases hb
        · exact absurd (scanCand_iff_snapCandidate.mp hj) (h j mg.2 mg.1)
  · intro m g hres
    obtain ⟨horig, hmin, _⟩ :=
      (snapScanAux_spec geom tol idx cur 0 none).2 m g hres
    rcases horig with hb | ⟨j, hj⟩
    · cases hb
    · exact ⟨⟨j, scanCand_iff_snapCandidate.mp hj⟩,
        fun j' og d hc => hmin j' og d (scanCand_iff_snapCandidate.mpr hc)⟩

theorem dispatchFix_snap_some (ops : ShapelyOps) (cur : List (Option Geom))
    (idx : ℕ) (geom : Geom) (ps : Option (List (String × ℚ))) (m : ℚ) (og : Geom)
    (h : snapScan cur idx geom (getParam ps "tolerance" (1/2)) = some (m, og)) :
    dispatchFix ops cur idx geom "SNAP" ps =
      .applied (cur.set idx (some (ops.snapTo geom og (getParam ps "tolerance" (1/2)))))
        "Snapped to nearest geometry" := by
  unfold dispatchFix
  rw [if_pos (show pyUpper "SNAP" = "SNAP" from rfl)]
  unfold snapStrategy
  rw [h]

theorem dispatchFix_snap_none (ops : ShapelyOps) (cur : List (Option Geom))
    (idx : ℕ) (geom : Geom) (ps : Option (List (String × ℚ)))
    (h : snapScan cur idx geom (getParam ps "tolerance" (1/2)) = none) :
    dispatchFix ops cur idx geom "SNAP" ps =
      .failed "No geometry found within snap tolerance" := by
  unfold dispatchFix
  rw [if_pos (show pyUpper "SNAP" = "SNAP" from rfl)]
  unfold snapStrategy
  rw [h]

/-- C5: for a live in-bounds SNAP target, the call succeeds exactly when
some other non-tombstone record lies strictly within the tolerance
(default 0.5, parameter-overridable) of the target, in which case the
target slot is replaced by shapely `snap(target, best, tolerance)` where
`best` is a strictly-nearest such record; with no candidate the call
fails and the state is unchanged. -/
theorem c5_snap_behaviour (ops : ShapelyOps) (s : EngineState)
    (errorId : List Char) (params : Option (List (String × ℚ)))
    (n : ℕ) (geom : Geom)
    (hidx : extractIdx errorId = (n : Int))
    (hn : n < s.currentGeometries.length)
    (hget : s.currentGeometries.getD n none = some geom) :
    ((applyFix ops s errorId "SNAP" params).2.success = true ↔
      ∃ j og d, SnapCandidate s.currentGeometries n geom
        (getParam params "tolerance" (1/2)) j og d) ∧
    (∀ m og,
      snapScan s.currentGeometries n geom (getParam params "tolerance" (1/2)) =
          some (m, og) →
      (applyFix ops s errorId "SNAP" params).1.currentGeometries =
        s.currentGeometries.set n
          (some (ops.snapTo geom og (getParam params "tolerance" (1/2)))) ∧
      (∃ j, SnapCandidate s.currentGeometries n geom
          (getParam params "tolerance" (1/2)) j og m) ∧
      (∀ j og' d, SnapCandidate s.currentGeometries n geom
          (getParam params "tolerance" (1/2)) j og' d → m ≤ d)) ∧
    ((applyFix ops s errorId "SNAP" params).2.success = false →
      (applyFix ops s errorId "SNAP" params).1 = s) := by
  have hguard : ¬(extractIdx errorId = -1 ∨
      (s.currentGeometries.length : Int) ≤ extractIdx errorId) := by
    rw [hidx]
    omega
  have happSome : ∀ m og,
      snapScan s.currentGeometries n geom (getParam params "tolerance" (1/2)) =
        some (m, og) →
      applyFix ops s errorId "SNAP" params =
        ({ originalGeometries := s.originalGeometries,
           currentGeometries := s.currentGeometries.set n
             (some (ops.snapTo geom og (getParam params "tolerance" (1/2)))),
           appliedFixes := s.appliedFixes ++
             [⟨errorId, "SNAP", ops.wktOf geom, "Snapped to nearest geometry", "now"⟩] },
         ⟨true, "Snapped to nearest geometry"⟩) := by
    intro m og h
    unfold applyFix
    rw [if_neg hguard, hidx]
    simp only [Int.toNat_natCast]
    rw [hget]
    simp only [dispatchFix_snap_some ops s.currentGeometries n geom params m og h]
  have happNone :
      snapScan s.currentGeometries n geom (getParam params "tolerance" (1/2)) = none →
      applyFix ops s errorId "SNAP" params =
        (s, ⟨false, "No geometry found within snap tolerance"⟩) := by
    intro h
    unfold applyFix
    rw [if_neg hguard, hidx]
    simp only [Int.toNat_natCast]
    rw [hget]
    simp only [dispatchFix_snap_none ops s.currentGeometries n geom params h]
  refine ⟨?_, ?_, ?_⟩
  · constructor
    · intro hsucc
      rcases hres : snapScan s.currentGeometries n geom
          (getParam params "tolerance" (1/2)) with _ | mg
      · rw [happNone hres] at hsucc
        cases hsucc
      · obtain ⟨⟨j, hj⟩, _⟩ :=
          (snapScan_spec s.currentGeometries n geom
            (getParam params "tolerance" (1/2))).2 mg.1 mg.2 hres
        exact ⟨j, mg.2, mg.1, hj⟩
    · rintro ⟨j, og, d, hc⟩
      rcases hres : snapScan s.currentGeometries n geom
          (getParam params "tolerance" (1/2)) with _ | mg
      · exact absurd hc
          ((snapScan_spec s.currentGeometries n geom
            (getParam params "tolerance" (1/2))).1.mp hres j og d)
      · rw [happSome mg.1 mg.2 hres]
  · intro m og hres
    obtain ⟨hex, hmin⟩ :=
      (snapScan_spec s.currentGeometries n geom
        (getParam params "tolerance" (1/2))).2 m og hres
    rw [happSome m og hres]
    exact ⟨rfl, hex, hmin⟩
  · intro hfail
    rcases hres : snapScan s.currentGeometries n geom
        (getParam params "tolerance" (1/2)) with _ | mg
    · rw [happNone hres]
    · rw [happSome mg.1 mg.2 hres] at hfail
      cases hfail

theorem c5_witness :
    (applyFix sampleOps (loadWktContent twoLinesText) "0".data "SNAP" none).2.success = true :=
  (c5_snap_behaviour sampleOps (loadWktContent twoLinesText) "0".data none 0
    (Geom.lineString [⟨0, 0⟩, ⟨10, 0⟩]) (by decide) (by decide) (by decide)).1.mpr
    ⟨1, Geom.lineString [⟨10, 0⟩, ⟨10, 10⟩], 0, by decide⟩

end MapQA
